import Mathlib

/-!
Verification of the media organizer naming and metadata engine.

The definitions below are a shallow embedding of the Python sources:
config.py (AppConfig), core/renamer.py (MediaRenamer), core/scanner.py
(MediaScanner), core/metadata.py (MetadataManager), editors/mp4_editor.py
(MP4Editor) and ui/gui.py (RenameWorker).  File system state is modelled as
the list of existing file paths; a path is a directory component list plus a
final name.  Machine integers of the source are modelled as Nat (season,
episode and year are non negative in the data model).
-/

/-- Zero padding of a decimal rendering, the semantics of the Python format
specifier 0wd applied to a non negative integer: left pad the decimal digits
with zeros up to the requested width, never truncating. -/
def padZeros (width : Nat) (n : Nat) : String :=
  let s := toString n
  String.mk (List.replicate (width - s.length) '0' ++ s.data)

/-- A file path: the directory, as a list of components, and the file name. -/
structure FilePath where
  dir : List String
  name : String
deriving DecidableEq, Repr

/-- Rendering of a path for error messages. -/
def FilePath.render (p : FilePath) : String :=
  String.intercalate "/" (p.dir ++ [p.name])

/-- The extension of a file name, following the CPython implementation of
PurePath.suffix: locate the last dot as str.rfind does; if it is neither the
first nor the last character the suffix is everything from the dot on,
otherwise it is empty. -/
def pySuffix (name : String) : String :=
  let cs := name.data
  let dots := (List.range cs.length).filter (fun i => cs.getD i ' ' == '.')
  match dots.getLast? with
  | some i => if 0 < i && i < cs.length - 1 then String.mk (cs.drop i) else ""
  | none => ""

/-- Application configuration, from config.py, with the defaults of the
dataclass.  Extension sets are modelled as lists. -/
structure AppConfig where
  media_extensions : List String := [".mp4", ".mkv", ".m4v", ".avi"]
  default_year : Nat := 2000
  default_season : Nat := 1
  default_episode : Nat := 1
  episode_padding : Nat := 3
  mkvpropedit_path : String := "mkvpropedit"
deriving DecidableEq, Repr

/-- AppConfig.format_episode_name: the episodic format string
of config.py line 97, title, the season zero padded to width 2 and the
episode zero padded to the configured width. -/
def AppConfig.format_episode_name (cfg : AppConfig) (title : String)
    (season episode : Nat) : String :=
  title ++ " S" ++ padZeros 2 season ++ " EP" ++ padZeros cfg.episode_padding episode

/-- AppConfig.format_movie_name: config.py lines 100 to 112.  The Python
guard is the truthiness test combined with the comparison, year and
year >= 1000; a missing year is the none case. -/
def AppConfig.format_movie_name (cfg : AppConfig) (title : String)
    (year : Option Nat) : String :=
  match year with
  | some y => if y ≠ 0 ∧ 1000 ≤ y then title ++ " (" ++ toString y ++ ")" else title
  | none => title

/-- Result record of a rename attempt, from models.py. -/
structure RenameResult where
  success : Bool
  original_path : FilePath
  new_path : Option FilePath := none
  error : Option String := none
deriving DecidableEq, Repr

/-- The renamer state, from core/renamer.py: the title and options given at
construction together with the configuration. -/
structure MediaRenamer where
  title : String
  config : AppConfig
  year : Option Nat := none
  include_year_in_filename : Bool := false
deriving DecidableEq, Repr

/-- MediaRenamer.generate_episode_name, core/renamer.py lines 66 to 80. -/
def MediaRenamer.generate_episode_name (r : MediaRenamer) (season episode : Nat) : String :=
  r.config.format_episode_name r.title season episode

/-- MediaRenamer.generate_new_name, core/renamer.py lines 82 to 113: keep the
directory, compute the stem from the episodic or movie format, append the
original extension. -/
def MediaRenamer.generate_new_name (r : MediaRenamer) (file_path : FilePath)
    (season episode : Nat) (episodic : Bool) : List String × String :=
  let directory := file_path.dir
  let extension := pySuffix file_path.name
  let episode_name :=
    if episodic then r.generate_episode_name season episode
    else if r.include_year_in_filename then
      r.config.format_movie_name r.title r.year
    else r.title
  (directory, episode_name ++ extension)

/-- POSIX rename of src to dst over a set of existing files: when both
arguments name the same file the call succeeds and performs no other action,
otherwise the source entry is removed and the destination entry added. -/
def osRename (fs : List FilePath) (src dst : FilePath) : List FilePath :=
  if src = dst then fs else dst :: fs.filter (fun q => decide (q ≠ src))

/-- MediaRenamer.rename_file, core/renamer.py lines 115 to 184, over the
file system modelled as the list of existing paths.  Returns the result
record and the file system after the call.  The source existence check comes
first; then the collision check, which is skipped when the computed target
equals the source; then the actual move. -/
def MediaRenamer.rename_file (r : MediaRenamer) (fs : List FilePath) (p : FilePath)
    (season episode : Nat) (episodic : Bool) : RenameResult × List FilePath :=
  if p ∈ fs then
    let gen := r.generate_new_name p season episode episodic
    let new_path : FilePath := ⟨gen.1, gen.2⟩
    if new_path ∈ fs ∧ new_path ≠ p then
      ({ success := false, original_path := p,
         error := some ("Target file already exists: " ++ new_path.render) }, fs)
    else
      ({ success := true, original_path := p, new_path := some new_path },
       osRename fs p new_path)
  else
    ({ success := false, original_path := p,
       error := some ("File does not exist: " ++ p.render) }, fs)

theorem padZeros_length (w n : Nat) :
    (padZeros w n).length = max w (toString n).length := by
  have h : ∀ s : String, s.length = s.data.length := fun _ => rfl
  simp only [padZeros, String.length_mk, List.length_append, List.length_replicate, h]
  omega

/-- Claim C1: in episodic mode the generated file name is the title, a space,
S followed by the season zero padded to width 2, a space, EP followed by the
episode zero padded to the configured width, then the original extension
verbatim.  The padded episode field has length max of the width and the digit
count, and its digits are the full decimal rendering behind the pad, so an
episode whose digit count exceeds the padding is rendered in full. -/
theorem episodic_name_format (cfg : AppConfig)
    (hpad : cfg.episode_padding = 2 ∨ cfg.episode_padding = 3)
    (title : String) (year : Option Nat) (inc : Bool) (p : FilePath)
    (season episode : Nat) :
    (MediaRenamer.mk title cfg year inc).generate_new_name p season episode true
      = (p.dir, title ++ " S" ++ padZeros 2 season ++ " EP"
          ++ padZeros cfg.episode_padding episode ++ pySuffix p.name)
    ∧ (padZeros cfg.episode_padding episode).length
        = max cfg.episode_padding (toString episode).length
    ∧ (padZeros cfg.episode_padding episode).data
        = List.replicate (cfg.episode_padding - (toString episode).length) '0'
            ++ (toString episode).data
    ∧ (padZeros 2 season).length = max 2 (toString season).length := by
  refine ⟨rfl, padZeros_length _ _, rfl, padZeros_length _ _⟩

theorem episodic_name_format_witness :
    ((2 : Nat) = 2 ∨ (2 : Nat) = 3)
    ∧ (MediaRenamer.mk "Show" { episode_padding := 2 } none false).generate_new_name
        (FilePath.mk [] "pilot.mp4") 1 100 true = ([], "Show S01 EP100.mp4") := by
  have h := episodic_name_format { episode_padding := 2 } (Or.inl rfl) "Show" none false
    (FilePath.mk [] "pilot.mp4") 1 100
  exact ⟨Or.inl rfl, h.1.trans (by decide)⟩

/-- Claim C8: in non episodic mode the generated name carries the year in
parentheses exactly when the include year flag is set and a year of at least
1000 was supplied; otherwise it is the bare title with the extension.  A
missing year is modelled as none, whose getD 0 fails the bound, and the
boundary at 1000 is exact. -/
theorem movie_name_boundary (cfg : AppConfig) (title : String) (year : Option Nat)
    (inc : Bool) (p : FilePath) (season episode : Nat) :
    (MediaRenamer.mk title cfg year inc).generate_new_name p season episode false
      = (p.dir,
          if inc = true ∧ 1000 ≤ year.getD 0
          then title ++ " (" ++ toString (year.getD 0) ++ ")" ++ pySuffix p.name
          else title ++ pySuffix p.name) := by
  cases year with
  | none =>
      cases inc <;>
        simp [MediaRenamer.generate_new_name, AppConfig.format_movie_name]
  | some y =>
      cases inc with
      | false => simp [MediaRenamer.generate_new_name]
      | true =>
          rcases Nat.lt_or_ge y 1000 with hy | hy
          · have hy2 : ¬ (1000 ≤ y) := by omega
            simp [MediaRenamer.generate_new_name, AppConfig.format_movie_name, hy2]
          · have hy0 : y ≠ 0 := by omega
            simp [MediaRenamer.generate_new_name, AppConfig.format_movie_name, hy0, hy]

/-- Claim C2: renaming a file that already carries the computed target name is
a no op success.  The collision branch is skipped because the target equals
the source, the POSIX rename of a path onto itself leaves the file system
unchanged, and the result reports success with the new path equal to the
original path. -/
theorem rename_idempotent (r : MediaRenamer) (fs : List FilePath) (p : FilePath)
    (season episode : Nat) (episodic : Bool)
    (hmem : p ∈ fs)
    (hname : (r.generate_new_name p season episode episodic).2 = p.name) :
    r.rename_file fs p season episode episodic
      = ({ success := true, original_path := p, new_path := some p }, fs) := by
  have hgen1 : (r.generate_new_name p season episode episodic).1 = p.dir := rfl
  have hp : (⟨(r.generate_new_name p season episode episodic).1,
      (r.generate_new_name p season episode episodic).2⟩ : FilePath) = p := by
    rw [hgen1, hname]
  simp only [MediaRenamer.rename_file]
  rw [if_pos hmem, hp]
  simp [osRename]

theorem rename_idempotent_witness :
    ((FilePath.mk [] "Show S01 EP005.mp4") ∈ [FilePath.mk [] "Show S01 EP005.mp4"])
    ∧ (MediaRenamer.mk "Show" {} none false).rename_file
        [FilePath.mk [] "Show S01 EP005.mp4"] (FilePath.mk [] "Show S01 EP005.mp4") 1 5 true
      = ({ success := true, original_path := FilePath.mk [] "Show S01 EP005.mp4",
           new_path := some (FilePath.mk [] "Show S01 EP005.mp4") },
         [FilePath.mk [] "Show S01 EP005.mp4"]) := by
  refine ⟨by decide, rename_idempotent (MediaRenamer.mk "Show" {} none false)
    [FilePath.mk [] "Show S01 EP005.mp4"] (FilePath.mk [] "Show S01 EP005.mp4")
    1 5 true (by decide) (by decide)⟩

/-- Claim C3: when the computed target path exists and differs from the
source, rename_file fails with the target already exists error and returns
the file system unchanged, so no move happens and the source file stays on
disk. -/
theorem rename_collision_safe (r : MediaRenamer) (fs : List FilePath) (p : FilePath)
    (season episode : Nat) (episodic : Bool)
    (hmem : p ∈ fs)
    (ht : (⟨p.dir, (r.generate_new_name p season episode episodic).2⟩ : FilePath) ∈ fs)
    (hne : (⟨p.dir, (r.generate_new_name p season episode episodic).2⟩ : FilePath) ≠ p) :
    r.rename_file fs p season episode episodic
      = ({ success := false, original_path := p,
           error := some ("Target file already exists: "
             ++ FilePath.render ⟨p.dir, (r.generate_new_name p season episode episodic).2⟩) },
         fs)
    ∧ p ∈ (r.rename_file fs p season episode episodic).2 := by
  have hgen : (r.generate_new_name p season episode episodic).1 = p.dir := rfl
  constructor
  · simp only [MediaRenamer.rename_file, hmem, if_pos, hgen]
    rw [if_pos ⟨ht, hne⟩]
  · simp only [MediaRenamer.rename_file, hmem, if_pos, hgen]
    rw [if_pos ⟨ht, hne⟩]
    exact hmem

theorem rename_collision_safe_witness :
    ((FilePath.mk [] "a.mp4") ∈ [FilePath.mk [] "a.mp4", FilePath.mk [] "Show S01 EP005.mp4"])
    ∧ (MediaRenamer.mk "Show" {} none false).rename_file
        [FilePath.mk [] "a.mp4", FilePath.mk [] "Show S01 EP005.mp4"]
        (FilePath.mk [] "a.mp4") 1 5 true
      = ({ success := false, original_path := FilePath.mk [] "a.mp4",
           error := some "Target file already exists: Show S01 EP005.mp4" },
         [FilePath.mk [] "a.mp4", FilePath.mk [] "Show S01 EP005.mp4"]) := by
  have h := rename_collision_safe (MediaRenamer.mk "Show" {} none false)
    [FilePath.mk [] "a.mp4", FilePath.mk [] "Show S01 EP005.mp4"]
    (FilePath.mk [] "a.mp4") 1 5 true (by decide) (by decide) (by decide)
  exact ⟨by decide, h.1.trans (by decide)⟩

/-- Lower casing as a plain map over the characters, the ASCII case mapping
of Char.toLower; this models the str.lower calls of the source over the
ASCII alphabet of names and extensions. -/
def strLower (s : String) : String :=
  String.mk (s.data.map Char.toLower)

/-- Metadata record, from models.py, with the dataclass defaults as zero
values. -/
structure MediaMetadata where
  title : String := ""
  season : Nat := 0
  episode : Nat := 0
  genre : String := ""
  year : Nat := 0
  collection : String := ""
deriving DecidableEq, Repr

/-- A discovered media file, from models.py. -/
structure MediaFile where
  path : FilePath
  original_name : String
  metadata : MediaMetadata := {}
  selected : Bool := true
deriving DecidableEq, Repr

/-- MediaFile.from_path, models.py lines 91 to 95. -/
def MediaFile.from_path (p : FilePath) : MediaFile :=
  { path := p, original_name := p.name }

/-- A directory tree: the plain file names of a directory and its named
subdirectories. -/
inductive DirTree where
  | mk (files : List String) (subdirs : List (String × DirTree))

mutual

/-- The files below a directory in the order produced by os.walk with the
default top down traversal: the files of the directory itself, then the
contents of each subdirectory in order. -/
def DirTree.walk (path : List String) : DirTree → List FilePath
  | DirTree.mk files subdirs =>
      files.map (fun f => ⟨path, f⟩) ++ DirTree.walkList path subdirs

/-- Traversal of a list of named subdirectories. -/
def DirTree.walkList (path : List String) : List (String × DirTree) → List FilePath
  | [] => []
  | (n, t) :: rest => DirTree.walk (path ++ [n]) t ++ DirTree.walkList path rest

end

/-- Lexicographic comparison of character lists by code point, the comparison
Python applies to the lower cased sort keys. -/
def charListLe : List Char → List Char → Bool
  | [], _ => true
  | _ :: _, [] => false
  | a :: as, b :: bs =>
    if a.toNat < b.toNat then true
    else if b.toNat < a.toNat then false
    else charListLe as bs

/-- The sort key relation of scan_directory: compare the lower cased original
names. -/
def nameLe (f g : MediaFile) : Bool :=
  charListLe (strLower f.original_name).data (strLower g.original_name).data

/-- What the scanner finds at the requested path: nothing, a non directory
entry, or a directory tree. -/
inductive FSNode where
  | missing
  | nonDir
  | dir (tree : DirTree)

/-- MediaScanner.scan_directory, core/scanner.py lines 35 to 78: an absent or
non directory argument yields the empty list; otherwise every file of the
subtree whose lower cased extension belongs to the configured set becomes an
entry, and the entries are sorted, stably, by lower cased name.  The stable
sort of the source, list.sort with a key, is modelled by mergeSort. -/
def MediaScanner.scan_directory (cfg : AppConfig) (rootPath : List String)
    (node : FSNode) : List MediaFile :=
  match node with
  | FSNode.missing => []
  | FSNode.nonDir => []
  | FSNode.dir t =>
      let found := (DirTree.walk rootPath t).filter
        (fun p => decide (strLower (pySuffix p.name) ∈ cfg.media_extensions))
      (found.map MediaFile.from_path).mergeSort nameLe

theorem charListLe_trans : ∀ (a b c : List Char),
    charListLe a b = true → charListLe b c = true → charListLe a c = true := by
  intro a
  induction a with
  | nil => intro b c _ _; rfl
  | cons x xs ih =>
    intro b c hab hbc
    cases b with
    | nil => simp [charListLe] at hab
    | cons y ys =>
      cases c with
      | nil => simp [charListLe] at hbc
      | cons z zs =>
        simp only [charListLe] at hab hbc ⊢
        split_ifs at hab hbc ⊢ <;> try rfl
        all_goals try exact ih ys zs hab hbc
        all_goals omega

theorem charListLe_total : ∀ (a b : List Char),
    charListLe a b || charListLe b a := by
  intro a
  induction a with
  | nil => intro b; simp [charListLe]
  | cons x xs ih =>
    intro b
    cases b with
    | nil => simp [charListLe]
    | cons y ys =>
      simp only [charListLe]
      by_cases h1 : x.toNat < y.toNat
      · simp [h1]
      · by_cases h2 : y.toNat < x.toNat
        · simp [h1, h2]
        · simpa [h1, h2] using ih ys

/-- Claim C9: scanning a directory returns exactly the subtree files whose
lower cased extension is in the configured set, each as the entry built by
MediaFile.from_path, sorted case insensitively by name; a missing path or a
non directory path yields the empty list. -/
theorem scan_directory_spec (cfg : AppConfig) (rootPath : List String) (t : DirTree) :
    (∀ mf : MediaFile,
        mf ∈ MediaScanner.scan_directory cfg rootPath (FSNode.dir t)
          ↔ ∃ p ∈ DirTree.walk rootPath t,
              strLower (pySuffix p.name) ∈ cfg.media_extensions
                ∧ mf = MediaFile.from_path p)
    ∧ (MediaScanner.scan_directory cfg rootPath (FSNode.dir t)).Pairwise
        (fun f g => nameLe f g = true)
    ∧ MediaScanner.scan_directory cfg rootPath FSNode.missing = []
    ∧ MediaScanner.scan_directory cfg rootPath FSNode.nonDir = [] := by
  refine ⟨?_, ?_, rfl, rfl⟩
  · intro mf
    simp only [MediaScanner.scan_directory, List.mem_mergeSort, List.mem_map,
      List.mem_filter, decide_eq_true_eq]
    constructor
    · rintro ⟨p, ⟨hw, hext⟩, hmf⟩
      exact ⟨p, hw, hext, hmf.symm⟩
    · rintro ⟨p, hw, hext, hmf⟩
      exact ⟨p, ⟨hw, hext⟩, hmf.symm⟩
  · have htrans : ∀ a b c : MediaFile,
        nameLe a b → nameLe b c → nameLe a c := fun a b c hab hbc =>
      charListLe_trans _ _ _ hab hbc
    have htotal : ∀ a b : MediaFile, nameLe a b || nameLe b a := fun a b =>
      charListLe_total _ _
    simpa only [MediaScanner.scan_directory] using
      List.sorted_mergeSort htrans htotal
        (((DirTree.walk rootPath t).filter
          (fun p => decide (strLower (pySuffix p.name) ∈ cfg.media_extensions))).map
            MediaFile.from_path)

/-- A small sample tree for evaluating the scanner claims: mixed extensions
and a subdirectory. -/
def demoTree : DirTree :=
  DirTree.mk ["B.mp4", "a.TXT", "c.jpg"] [("sub", DirTree.mk ["a.MKV", "d.avi"] [])]

theorem scan_directory_spec_witness :
    MediaFile.from_path ⟨["sub"], "a.MKV"⟩
      ∈ MediaScanner.scan_directory {} [] (FSNode.dir demoTree) := by
  exact ((scan_directory_spec {} [] demoTree).1 _).mpr (by decide)

/-- Outcome of one editor write call: a returned boolean, or a raised
exception carrying a message. -/
inductive EditorOutcome where
  | ok (success : Bool)
  | raises (msg : String)
deriving DecidableEq, Repr

/-- An editor as the metadata manager sees it, protocols.py: a write
capability for the records of its supported extensions. -/
structure MetadataEditorM where
  write : FilePath → MediaMetadata → EditorOutcome

/-- Result record of a metadata update, from models.py. -/
structure MetadataUpdateResult where
  success : Bool
  file_path : FilePath
  error : Option String := none
deriving DecidableEq, Repr

/-- The metadata manager, core/metadata.py: the extension to editor mapping
and the configuration used by the default renamer factory. -/
structure MetadataManager where
  editors : List (String × MetadataEditorM)
  config : AppConfig

/-- MetadataManager._get_editor, core/metadata.py lines 64 to 74: look the
lower cased extension up in the editor mapping. -/
def MetadataManager.get_editor (m : MetadataManager) (p : FilePath) :
    Option MetadataEditorM :=
  m.editors.lookup (strLower (pySuffix p.name))

/-- MetadataManager.update_metadata, core/metadata.py lines 95 to 162.  When
the record carries a non empty title and positive season and episode, the
title is replaced by the formatted episode name computed through the default
renamer factory, which applies AppConfig.format_episode_name; then the editor
chosen by extension writes the record, a missing editor and both editor
failure modes becoming structured failure results. -/
def MetadataManager.update_metadata (m : MetadataManager) (p : FilePath)
    (md : MediaMetadata) : MetadataUpdateResult :=
  let md2 :=
    if md.title ≠ "" ∧ 0 < md.season ∧ 0 < md.episode then
      { md with title := m.config.format_episode_name md.title md.season md.episode }
    else md
  match m.get_editor p with
  | none =>
      { success := false, file_path := p,
        error := some ("Unsupported file type: " ++ pySuffix p.name) }
  | some ed =>
      match ed.write p md2 with
      | EditorOutcome.ok true => { success := true, file_path := p }
      | EditorOutcome.ok false =>
          { success := false, file_path := p, error := some "Editor write failed" }
      | EditorOutcome.raises msg =>
          { success := false, file_path := p, error := some msg }

/-- The tag set of an MPEG 4 family file: the five tag keys touched by the
editor, each possibly absent.  The field names stand for the mutagen keys
for title, season, episode, genre and date. -/
structure MP4Tags where
  nam : Option String := none
  tvsn : Option (List Nat) := none
  tves : Option (List Nat) := none
  gen : Option String := none
  day : Option (List String) := none
deriving DecidableEq, Repr

/-- MP4Editor._apply_metadata, editors/mp4_editor.py lines 119 to 143: each
field is written only when it is away from its zero value, in the order
title, season, episode, genre, year; the year is stored as its decimal
string in a singleton list and the numbers as singleton lists. -/
def MP4Editor.apply_metadata (mp4 : MP4Tags) (md : MediaMetadata) : MP4Tags :=
  let m1 := if md.title ≠ "" then { mp4 with nam := some md.title } else mp4
  let m2 := if 0 < md.season then { m1 with tvsn := some [md.season] } else m1
  let m3 := if 0 < md.episode then { m2 with tves := some [md.episode] } else m2
  let m4 := if md.genre ≠ "" then { m3 with gen := some md.genre } else m3
  if 0 < md.year then { m4 with day := some [toString md.year] } else m4

/-- RenameWorker.run, ui/gui.py lines 234 to 250, parameterised by the
rename call over an abstract state, so that both the real renamer over a
file system state and the stubbed renamers of the test suite instantiate it.
Returns the trace of the loop, one entry per processed file carrying the row
index, the episode number passed to rename_file, the returned result and the
entry object as the loop leaves it: the loop body reads media_file.path and
emits progress but never assigns to the entry, so entries come out exactly
as they went in.  The current episode advances only after a successful
rename and only in episodic mode. -/
def RenameWorker.run {σ : Type}
    (renameCall : σ → FilePath → Nat → Nat → Bool → RenameResult × σ)
    (season : Nat) (episodic : Bool) :
    σ → Nat → List (Nat × MediaFile) →
      List (Nat × Nat × RenameResult × MediaFile) × σ
  | s, _, [] => ([], s)
  | s, cur, (row, mf) :: rest =>
      let call := renameCall s mf.path season cur episodic
      let cur2 := if call.1.success && episodic then cur + 1 else cur
      let tail := RenameWorker.run renameCall season episodic call.2 cur2 rest
      ((row, cur, call.1, mf) :: tail.1, tail.2)

theorem run_length {σ : Type}
    (rc : σ → FilePath → Nat → Nat → Bool → RenameResult × σ)
    (season : Nat) (episodic : Bool) :
    ∀ (files : List (Nat × MediaFile)) (s : σ) (cur : Nat),
      (RenameWorker.run rc season episodic s cur files).1.length = files.length := by
  intro files
  induction files with
  | nil => intro s cur; rfl
  | cons a rest ih =>
      obtain ⟨row, mf⟩ := a
      intro s cur
      simp [RenameWorker.run, ih]

theorem run_head_episode {σ : Type}
    (rc : σ → FilePath → Nat → Nat → Bool → RenameResult × σ)
    (season : Nat) (episodic : Bool) (s : σ) (cur : Nat)
    (files : List (Nat × MediaFile))
    (h : 0 < (RenameWorker.run rc season episodic s cur files).1.length) :
    ((RenameWorker.run rc season episodic s cur files).1.get ⟨0, h⟩).2.1 = cur := by
  cases files with
  | nil => simp [RenameWorker.run] at h
  | cons a rest => obtain ⟨row, mf⟩ := a; simp [RenameWorker.run]

/-- A stub rename call over a call counter: the second invocation fails as a
target collision, every other invocation succeeds, mirroring the failure
injection of the test suite. -/
def failSecondCall : Nat → FilePath → Nat → Nat → Bool → RenameResult × Nat :=
  fun k p _ _ _ =>
    (if k = 1 then
        { success := false, original_path := p,
          error := some "Target file already exists: collision" }
      else { success := true, original_path := p, new_path := some p },
     k + 1)

/-- Three selected entries for the batch sequencing scenarios. -/
def cxFiles : List (Nat × MediaFile) :=
  [(0, MediaFile.from_path ⟨[], "f1.mp4"⟩),
   (1, MediaFile.from_path ⟨[], "f2.mp4"⟩),
   (2, MediaFile.from_path ⟨[], "f3.mp4"⟩)]

/-- Claim C4, counterexample: in a batch of three files starting at episode 5
whose second rename call fails, the episode numbers passed to the three calls
are 5, 6 and 6, not 5, 5 and 6 as the claim asserts. -/
theorem rename_worker_example_counterexample :
    ((RenameWorker.run failSecondCall 1 true 0 5 cxFiles).1.map
        (fun e => e.2.2.1.success) = [true, false, true])
    ∧ ((RenameWorker.run failSecondCall 1 true 0 5 cxFiles).1.map
        (fun e => e.2.1) = [5, 6, 6])
    ∧ ([5, 6, 6] ≠ [5, 5, 6]) := by
  decide

/-- Claim C4, amended: in episodic mode the episode number passed to each
successive rename call is the previous number plus one exactly when the
previous call succeeded, a failed call consuming nothing, and the first call
receives the starting episode; in the three file batch starting at episode 5
whose second call fails the calls therefore receive 5, 6 and 6, the third
call retrying the number the failed second call would have consumed. -/
theorem rename_worker_sequencing {σ : Type}
    (rc : σ → FilePath → Nat → Nat → Bool → RenameResult × σ)
    (season : Nat) (s0 : σ) (E : Nat) (files : List (Nat × MediaFile)) :
    (∀ (i : Nat)
        (h1 : i < (RenameWorker.run rc season true s0 E files).1.length)
        (h2 : i + 1 < (RenameWorker.run rc season true s0 E files).1.length),
        ((RenameWorker.run rc season true s0 E files).1.get ⟨i + 1, h2⟩).2.1
          = ((RenameWorker.run rc season true s0 E files).1.get ⟨i, h1⟩).2.1
            + (if ((RenameWorker.run rc season true s0 E files).1.get
                  ⟨i, h1⟩).2.2.1.success then 1 else 0))
    ∧ (∀ (h0 : 0 < (RenameWorker.run rc season true s0 E files).1.length),
        ((RenameWorker.run rc season true s0 E files).1.get ⟨0, h0⟩).2.1 = E)
    ∧ ((RenameWorker.run failSecondCall 1 true 0 5 cxFiles).1.map
        (fun e => e.2.1) = [5, 6, 6]) := by
  refine ⟨?_, fun h0 => run_head_episode rc season true s0 E files h0, by decide⟩
  induction files generalizing s0 E with
  | nil => intro i h1 h2; simp [RenameWorker.run] at h1
  | cons a rest ih =>
      obtain ⟨row, mf⟩ := a
      intro i h1 h2
      have hc : (RenameWorker.run rc season true s0 E ((row, mf) :: rest)).1.length
          = rest.length + 1 := by
        simp [RenameWorker.run, run_length]
      rw [hc] at h1 h2
      cases i with
      | zero =>
          have hlen : 0 < (RenameWorker.run rc season true
              (rc s0 mf.path season E true).2
              (if (rc s0 mf.path season E true).1.success && true then E + 1 else E)
              rest).1.length := by
            rw [run_length]; omega
          have hhead := run_head_episode rc season true
            (rc s0 mf.path season E true).2
            (if (rc s0 mf.path season E true).1.success && true then E + 1 else E)
            rest hlen
          simp only [RenameWorker.run, List.get]
          rw [hhead]
          rcases Bool.eq_false_or_eq_true (rc s0 mf.path season E true).1.success
            with hs | hs <;> simp [hs]
      | succ j =>
          have h1t : j < (RenameWorker.run rc season true
              (rc s0 mf.path season E true).2
              (if (rc s0 mf.path season E true).1.success && true then E + 1 else E)
              rest).1.length := by
            rw [run_length]; omega
          have h2t : j + 1 < (RenameWorker.run rc season true
              (rc s0 mf.path season E true).2
              (if (rc s0 mf.path season E true).1.success && true then E + 1 else E)
              rest).1.length := by
            rw [run_length]; omega
          have := ih (rc s0 mf.path season E true).2
            (if (rc s0 mf.path season E true).1.success && true then E + 1 else E)
            j h1t h2t
          simp only [RenameWorker.run, List.get]
          exact this

theorem rename_worker_sequencing_witness :
    ((RenameWorker.run failSecondCall 1 true 0 5 cxFiles).1.get ⟨2, by decide⟩).2.1
      = 6 := by
  have h := (rename_worker_sequencing failSecondCall 1 0 5 cxFiles).1 1
    (by decide) (by decide)
  exact h.trans (by decide)

/-- The real rename call of the worker: MediaRenamer.rename_file over the
file system state. -/
def realRenameCall (r : MediaRenamer) :
    List FilePath → FilePath → Nat → Nat → Bool → RenameResult × List FilePath :=
  fun fs p season episode episodic => r.rename_file fs p season episode episodic

/-- Claim C5, evaluation at the failing input: one selected entry named
original.m4v, a renamer titled Test Show in non episodic mode, an otherwise
empty directory.  The rename call succeeds and moves the file to
Test Show.m4v, yet the caller visible entry still carries the original path
after the worker loop, because the loop never writes the new path back into
the entry. -/
theorem rename_worker_path_stale :
    ((RenameWorker.run (realRenameCall (MediaRenamer.mk "Test Show" {} none false))
        1 false [⟨[], "original.m4v"⟩] 1
        [(0, MediaFile.from_path ⟨[], "original.m4v"⟩)]).1.map
          (fun e => e.2.2.1.success) = [true])
    ∧ ((RenameWorker.run (realRenameCall (MediaRenamer.mk "Test Show" {} none false))
        1 false [⟨[], "original.m4v"⟩] 1
        [(0, MediaFile.from_path ⟨[], "original.m4v"⟩)]).1.map
          (fun e => e.2.2.1.new_path) = [some ⟨[], "Test Show.m4v"⟩])
    ∧ ((RenameWorker.run (realRenameCall (MediaRenamer.mk "Test Show" {} none false))
        1 false [⟨[], "original.m4v"⟩] 1
        [(0, MediaFile.from_path ⟨[], "original.m4v"⟩)]).1.map
          (fun e => e.2.2.2.path) = [⟨[], "original.m4v"⟩])
    ∧ ((⟨[], "original.m4v"⟩ : FilePath) ≠ ⟨[], "Test Show.m4v"⟩) := by
  decide

/-- Claim C6: when an editor is registered for the extension, update_metadata
hands the editor the record whose title is the formatted episode name exactly
when the incoming title is non empty and season and episode are positive,
every other field unchanged, and the raw record otherwise; the result is the
direct translation of the editor write outcome. -/
theorem update_metadata_title_substitution (m : MetadataManager) (p : FilePath)
    (md : MediaMetadata) (ed : MetadataEditorM)
    (hed : m.get_editor p = some ed) :
    m.update_metadata p md =
      (match ed.write p
          (if md.title ≠ "" ∧ 0 < md.season ∧ 0 < md.episode then
            { title := m.config.format_episode_name md.title md.season md.episode,
              season := md.season, episode := md.episode, genre := md.genre,
              year := md.year, collection := md.collection }
          else md) with
        | EditorOutcome.ok true => { success := true, file_path := p }
        | EditorOutcome.ok false =>
            { success := false, file_path := p, error := some "Editor write failed" }
        | EditorOutcome.raises msg =>
            { success := false, file_path := p, error := some msg }) := by
  simp only [MetadataManager.update_metadata, hed]

/-- An editor whose write always reports success. -/
def okEditor : MetadataEditorM := ⟨fun _ _ => EditorOutcome.ok true⟩

/-- An editor whose write always returns false. -/
def failEditor : MetadataEditorM := ⟨fun _ _ => EditorOutcome.ok false⟩

/-- An editor whose write always raises. -/
def raiseEditor : MetadataEditorM := ⟨fun _ _ => EditorOutcome.raises "mutagen error"⟩

theorem update_metadata_title_substitution_witness :
    (MetadataManager.mk [(".mp4", okEditor)] {}).update_metadata ⟨[], "e.mp4"⟩
        { title := "Show", season := 1, episode := 5 }
      = { success := true, file_path := ⟨[], "e.mp4"⟩ } := by
  exact (update_metadata_title_substitution (MetadataManager.mk [(".mp4", okEditor)] {})
    ⟨[], "e.mp4"⟩ { title := "Show", season := 1, episode := 5 } okEditor rfl).trans rfl

/-- Claim C7: update_metadata never lets an editor exception escape.  With no
editor registered for the lower cased extension the result is the unsupported
file type failure, whatever the registered editors would do; a write
returning false becomes the editor write failed result; a write raising a
message becomes a failure result carrying that message. -/
theorem update_metadata_error_handling (m : MetadataManager) (p : FilePath)
    (md : MediaMetadata) :
    (m.get_editor p = none →
      m.update_metadata p md
        = { success := false, file_path := p,
            error := some ("Unsupported file type: " ++ pySuffix p.name) })
    ∧ (∀ ed : MetadataEditorM, m.get_editor p = some ed →
        ed.write p
            (if md.title ≠ "" ∧ 0 < md.season ∧ 0 < md.episode then
              { md with title := m.config.format_episode_name md.title md.season md.episode }
            else md) = EditorOutcome.ok false →
        m.update_metadata p md
          = { success := false, file_path := p, error := some "Editor write failed" })
    ∧ (∀ (ed : MetadataEditorM) (msg : String), m.get_editor p = some ed →
        ed.write p
            (if md.title ≠ "" ∧ 0 < md.season ∧ 0 < md.episode then
              { md with title := m.config.format_episode_name md.title md.season md.episode }
            else md) = EditorOutcome.raises msg →
        m.update_metadata p md
          = { success := false, file_path := p, error := some msg }) := by
  refine ⟨fun hnone => ?_, fun ed hed hw => ?_, fun ed msg hed hw => ?_⟩
  · simp only [MetadataManager.update_metadata, hnone]
  · simp only [MetadataManager.update_metadata, hed, hw]
  · simp only [MetadataManager.update_metadata, hed, hw]

theorem update_metadata_error_handling_witness :
    ((MetadataManager.mk [(".mp4", okEditor)] {}).update_metadata ⟨[], "notes.txt"⟩
        { title := "Show" }
      = { success := false, file_path := ⟨[], "notes.txt"⟩,
          error := some "Unsupported file type: .txt" })
    ∧ ((MetadataManager.mk [(".mp4", failEditor)] {}).update_metadata ⟨[], "a.mp4"⟩
        { title := "Show" }
      = { success := false, file_path := ⟨[], "a.mp4"⟩,
          error := some "Editor write failed" })
    ∧ ((MetadataManager.mk [(".m4v", raiseEditor)] {}).update_metadata ⟨[], "a.m4v"⟩
        { title := "Show" }
      = { success := false, file_path := ⟨[], "a.m4v"⟩,
          error := some "mutagen error" }) := by
  refine ⟨?_, ?_, ?_⟩
  · exact ((update_metadata_error_handling (MetadataManager.mk [(".mp4", okEditor)] {})
      ⟨[], "notes.txt"⟩ { title := "Show" }).1 rfl).trans (by decide)
  · exact ((update_metadata_error_handling (MetadataManager.mk [(".mp4", failEditor)] {})
      ⟨[], "a.mp4"⟩ { title := "Show" }).2.1 failEditor rfl rfl)
  · exact ((update_metadata_error_handling (MetadataManager.mk [(".m4v", raiseEditor)] {})
      ⟨[], "a.m4v"⟩ { title := "Show" }).2.2 raiseEditor "mutagen error" rfl rfl)

/-- Claim C10: the MPEG 4 family editor writes each tag exactly when the
corresponding record field is away from its zero value and otherwise leaves
the existing tag in place, so writing a record with a zero season keeps
whatever season tag the file already carries. -/
theorem mp4_apply_metadata_partial (mp4 : MP4Tags) (md : MediaMetadata) :
    MP4Editor.apply_metadata mp4 md =
      { nam := if md.title ≠ "" then some md.title else mp4.nam,
        tvsn := if 0 < md.season then some [md.season] else mp4.tvsn,
        tves := if 0 < md.episode then some [md.episode] else mp4.tves,
        gen := if md.genre ≠ "" then some md.genre else mp4.gen,
        day := if 0 < md.year then some [toString md.year] else mp4.day } := by
  simp only [MP4Editor.apply_metadata]
  split_ifs <;> rfl
